import Mathlib

/-!
Shallow embedding of the trino-python-client query-execution protocol engine.

The repository under verification ships its protocol constants
(`trino/constants.py`) and its integration test suite
(`integration_tests/test_dbapi.py`); the engine itself (request building,
retry loop, cursor, codec) is modelled here from the specification, with the
integration tests pinning observable behavior where they decide it.
-/

namespace Trino

/-! ## Constants (from `src/trino/constants.py`) -/
def DEFAULT_PORT : Nat := 8080

def DEFAULT_SOURCE : String := "presto-python-client"

def DEFAULT_CATALOG : Option String := none

def DEFAULT_SCHEMA : Option String := none

def DEFAULT_AUTH : Option String := none

def DEFAULT_MAX_ATTEMPTS : Nat := 3

/-- Default request timeout of 30.0 seconds, modelled as an exact rational. -/
def DEFAULT_REQUEST_TIMEOUT : ℚ := 30

def URL_STATEMENT_PATH : String := "/v1/statement"

/-! ## Error taxonomy (spec section 7) -/
/-- Structured server error payload carried in a response body
(spec section 4.3: message, error code, error name). -/
structure ErrorPayload where
  message : String
  errorCode : Nat
  errorName : String
  deriving DecidableEq, Repr

/-- Stats snapshot of one page (spec section 3): query id, phase string and
the monotonically-advancing counters. -/
structure Stats where
  queryId : String
  state : String
  completedSplits : Nat
  cpuTimeMillis : Nat
  processedBytes : Nat
  processedRows : Nat
  wallTimeMillis : Nat
  deriving DecidableEq, Repr

/-- Pointwise order on the monotonic counters of a stats snapshot. -/
def Stats.counterLe (a b : Stats) : Prop :=
  a.completedSplits ≤ b.completedSplits ∧
  a.cpuTimeMillis ≤ b.cpuTimeMillis ∧
  a.processedBytes ≤ b.processedBytes ∧
  a.processedRows ≤ b.processedRows ∧
  a.wallTimeMillis ≤ b.wallTimeMillis

instance (a b : Stats) : Decidable (a.counterLe b) :=
  inferInstanceAs (Decidable (a.completedSplits ≤ b.completedSplits ∧
    a.cpuTimeMillis ≤ b.cpuTimeMillis ∧
    a.processedBytes ≤ b.processedBytes ∧
    a.processedRows ≤ b.processedRows ∧
    a.wallTimeMillis ≤ b.wallTimeMillis))

/-! ## Wire protocol: responses and outcome classification -/
/-- One row of a result page; decoded values are kept abstract at this layer. -/
abbrev Row := List String

/-- One parsed response body (spec section 4.3 and 6): `id`, optional
`nextUri`, optional column metadata, optional data rows, stats, optional
structured error payload. -/
structure Response where
  id : String
  nextUri : Option String
  columns : Option (List String)
  data : Option (List Row)
  stats : Stats
  error : Option ErrorPayload
  deriving DecidableEq, Repr

/-- Modelled from the spec: the raw result of one HTTP exchange as seen by
the retry layer (spec section 4.2) — network-level failure, an HTTP error
status, a server-overload status, an unparseable body, or a parsed body. -/
inductive RawResult where
  | netFail
  | httpError (code : Nat)
  | serverBusy
  | malformed
  | ok (r : Response)
  deriving DecidableEq, Repr

/-- RetryPolicy classification classes (spec section 4.2). -/
inductive Outcome where
  | retryableTransport
  | retryableServerBusy
  | fatalProtocol
  | fatalQuery (e : ErrorPayload)
  | success (r : Response)
  deriving DecidableEq, Repr

/-- Modelled from the spec: RetryPolicy classification of one exchange
(spec section 4.2 and 4.3) — connection failures and 502/503/504 are
`RETRYABLE_TRANSPORT`, the overload status is `RETRYABLE_SERVER_BUSY`,
a malformed body or unexpected status is `FATAL_PROTOCOL`, a response
with a populated `error` field is `FATAL_QUERY`, anything else `SUCCESS`. -/
def classify : RawResult → Outcome
  | .netFail => .retryableTransport
  | .httpError c =>
      if c = 502 ∨ c = 503 ∨ c = 504 then .retryableTransport else .fatalProtocol
  | .serverBusy => .retryableServerBusy
  | .malformed => .fatalProtocol
  | .ok r =>
      match r.error with
      | some e => .fatalQuery e
      | none => .success r

/-- Only the two transport/backoff classes are retried (spec section 7). -/
def Outcome.retryable : Outcome → Bool
  | .retryableTransport => true
  | .retryableServerBusy => true
  | _ => false

/-- Driver error taxonomy of spec section 7, extended with the documented
`NoActiveQuery` condition of spec section 4.1. A `transportError` carries the
last classified outcome (spec section 4.2). -/
inductive DriverError where
  | programmingError (msg : String)
  | queryError (message : String) (errorCode : Nat) (errorName : String)
  | transportError (msg : String) (last : Option Outcome)
  | protocolError (msg : String)
  | noActiveQuery (msg : String)
  | unsupportedParameterType (msg : String)
  deriving DecidableEq, Repr

/-- Recognizer for the `transportError` constructor. -/
def DriverError.isTransportError : DriverError → Bool
  | .transportError _ _ => true
  | _ => false

/-- Surface a fatal classification immediately (spec section 7: all classes
other than the transport/backoff ones surface immediately, never retried). -/
def surfaceFatal : Outcome → Except DriverError Response
  | .success r => .ok r
  | .fatalQuery e => .error (.queryError e.message e.errorCode e.errorName)
  | _ => .error (.protocolError ("malformed response"))

/-- Modelled from the spec: the retry loop around one logical HTTP exchange
(spec section 4.2). `transport i` is the raw result of the `i`-th exchange;
`remaining` exchanges may still be attempted. Returns the surfaced result
together with the number of exchanges actually attempted. Exhausting the
attempt ceiling raises the "max attempts exceeded" `transportError` carrying
the last classified outcome. -/
def retryLoop (transport : Nat → RawResult) :
    Nat → Nat → Option Outcome → Except DriverError Response × Nat
  | 0, i, last => (.error (.transportError ("max attempts exceeded") last), i)
  | remaining + 1, i, _ =>
      let o := classify (transport i)
      if o.retryable then
        retryLoop transport remaining (i + 1) (some o)
      else
        (surfaceFatal o, i + 1)

/-- Modelled from the spec: one logical HTTP exchange performed with retries
up to the `maxAttempts` ceiling (spec section 4.2). -/
def runExchange (transport : Nat → RawResult) (maxAttempts : Nat) :
    Except DriverError Response × Nat :=
  retryLoop transport maxAttempts 0 none

/-! ## TypeCodec (spec section 4.4)

Native parameter values, SQL-literal encoding, wire column values and
type-directed decoding. The integration tests pin the observable behavior:
`test_string_query_param`, `test_int_query_param`, `test_boolean_query_param`,
`test_array_query_param` and `test_dict_query_param` observe values
round-tripping unchanged, while `test_datetime_query_param` observes
timestamp values coming back as their raw textual wire rendering. -/
/-- Single-quote character (code 39), written numerically so the SQL quoting
logic is explicit about the exact code point it doubles. -/
def sq : Char := Char.ofNat 39

def dashChar : Char := Char.ofNat 45

def colonChar : Char := Char.ofNat 58

def dotChar : Char := Char.ofNat 46

def spaceChar : Char := Char.ofNat 32

def plusChar : Char := Char.ofNat 43

/-- SQL text escaping: double every embedded single quote (spec section 4.4:
"correct SQL quoting/escaping for text (doubling embedded quotes)"). -/
def escapeQuotes : List Char → List Char
  | [] => []
  | c :: rest => if c = sq then sq :: sq :: escapeQuotes rest else c :: escapeQuotes rest

/-- Modelled from the spec: the server-side unquoting of a single-quoted SQL
text literal body — each doubled quote collapses back to one quote. -/
def collapseQuotes : List Char → List Char
  | [] => []
  | [c] => [c]
  | c1 :: c2 :: rest =>
      if c1 = sq then
        if c2 = sq then sq :: collapseQuotes rest
        else c1 :: collapseQuotes (c2 :: rest)
      else c1 :: collapseQuotes (c2 :: rest)

/-- Decimal digit character for `n < 10`. -/
def digitChar (n : Nat) : Char := Char.ofNat (48 + n)

def isDigitChar (c : Char) : Bool := 48 ≤ c.toNat && c.toNat ≤ 57

def digitVal (c : Char) : Nat := c.toNat - 48

/-- Fixed-width zero-padded decimal rendering, most significant digit
first. -/
def padDigits : Nat → Nat → List Char
  | 0, _ => []
  | w + 1, n => padDigits w (n / 10) ++ [digitChar (n % 10)]

/-- Unpadded decimal rendering of a natural number. -/
def natDigits (n : Nat) : List Char := padDigits (Nat.log 10 n + 1) n

/-- Consume exactly `w` decimal digits, folding them onto `acc`. -/
def parseFixedAux : Nat → Nat → List Char → Option (Nat × List Char)
  | 0, acc, l => some (acc, l)
  | w + 1, acc, c :: l =>
      if isDigitChar c then parseFixedAux w (acc * 10 + digitVal c) l else none
  | _ + 1, _, [] => none

def parseFixed (w : Nat) (l : List Char) : Option (Nat × List Char) :=
  parseFixedAux w 0 l

/-- Greedily consume leading decimal digits, folding them onto `acc`. -/
def takeDigitsAcc : Nat → List Char → Nat × List Char
  | acc, [] => (acc, [])
  | acc, c :: rest =>
      if isDigitChar c then takeDigitsAcc (acc * 10 + digitVal c) rest
      else (acc, c :: rest)

/-- Parse a nonempty maximal run of decimal digits. -/
def parseNatLead : List Char → Option (Nat × List Char)
  | [] => none
  | c :: rest =>
      if isDigitChar c then some (takeDigitsAcc 0 (c :: rest)) else none

def expectChar (c : Char) : List Char → Option (List Char)
  | d :: rest => if d = c then some rest else none
  | [] => none

/-- Wire rendering of a date value, `YYYY-MM-DD`. -/
def renderDate (y m d : Nat) : List Char :=
  padDigits 4 y ++ dashChar :: (padDigits 2 m ++ dashChar :: padDigits 2 d)

/-- Wire rendering of a time-of-day with millisecond precision,
`HH:MM:SS.mmm`. -/
def renderTimeBase (h mi s ms : Nat) : List Char :=
  padDigits 2 h ++ colonChar :: (padDigits 2 mi ++ colonChar ::
    (padDigits 2 s ++ dotChar :: padDigits 3 ms))

/-- Wire rendering of a fixed zone offset in minutes, `+HH:MM` or
`-HH:MM`. -/
def renderOffset (o : ℤ) : List Char :=
  (if o < 0 then dashChar else plusChar) ::
    (padDigits 2 (o.natAbs / 60) ++ colonChar :: padDigits 2 (o.natAbs % 60))

/-- Wire rendering of a time value, with an optional fixed zone offset. -/
def renderTime (h mi s ms : Nat) (off : Option ℤ) : List Char :=
  renderTimeBase h mi s ms ++ (match off with
    | none => []
    | some o => renderOffset o)

/-- Wire rendering of a timestamp with millisecond precision,
`YYYY-MM-DD HH:MM:SS.mmm`. -/
def renderTimestamp (y mo d h mi s ms : Nat) : List Char :=
  renderDate y mo d ++ spaceChar :: renderTimeBase h mi s ms

/-- Wire rendering of an exact fixed-point decimal with `sc` fraction
digits. -/
def renderDecimal (u : ℤ) (sc : Nat) : List Char :=
  (if u < 0 then [dashChar] else []) ++
    (if sc = 0 then natDigits u.natAbs
     else natDigits (u.natAbs / 10 ^ sc) ++ dotChar :: padDigits sc (u.natAbs % 10 ^ sc))

/-- Parse a date wire value back, `YYYY-MM-DD`. -/
def parseDate (l : List Char) : Option (Nat × Nat × Nat) := do
  let (y, l) ← parseFixed 4 l
  let l ← expectChar dashChar l
  let (m, l) ← parseFixed 2 l
  let l ← expectChar dashChar l
  let (d, l) ← parseFixed 2 l
  if l.isEmpty then some (y, m, d) else none

/-- Parse a time-of-day prefix, `HH:MM:SS.mmm`, returning the remaining
input. -/
def parseTimeBase (l : List Char) : Option ((Nat × Nat × Nat × Nat) × List Char) := do
  let (h, l) ← parseFixed 2 l
  let l ← expectChar colonChar l
  let (mi, l) ← parseFixed 2 l
  let l ← expectChar colonChar l
  let (s, l) ← parseFixed 2 l
  let l ← expectChar dotChar l
  let (ms, l) ← parseFixed 3 l
  some ((h, mi, s, ms), l)

/-- Parse a fixed zone offset, `+HH:MM` or `-HH:MM`. -/
def parseOffset (l : List Char) : Option ℤ := do
  match l with
  | c :: l =>
      let (oh, l) ← parseFixed 2 l
      let l ← expectChar colonChar l
      let (om, l) ← parseFixed 2 l
      if l.isEmpty then
        if c = dashChar then some (-((oh * 60 + om : Nat) : ℤ))
        else if c = plusChar then some ((oh * 60 + om : Nat) : ℤ)
        else none
      else none
  | [] => none

/-- Parse a zoneless time wire value. -/
def parseTime (l : List Char) : Option (Nat × Nat × Nat × Nat) := do
  let (t, l) ← parseTimeBase l
  if l.isEmpty then some t else none

/-- Parse a time-with-zone wire value. -/
def parseTimeTz (l : List Char) : Option ((Nat × Nat × Nat × Nat) × ℤ) := do
  let (t, l) ← parseTimeBase l
  let o ← parseOffset l
  some (t, o)

/-- Split a leading minus sign off a numeric wire value. -/
def parseSign : List Char → Bool × List Char
  | c :: rest => if c = dashChar then (true, rest) else (false, c :: rest)
  | [] => (false, [])

/-- Parse the unsigned magnitude of a fixed-point decimal with `sc` fraction
digits. -/
def parseMagnitude (sc : Nat) (l : List Char) : Option Nat := do
  let (ip, l) ← parseNatLead l
  if sc = 0 then
    if l.isEmpty then some ip else none
  else do
    let l ← expectChar dotChar l
    let (fp, l) ← parseFixed sc l
    if l.isEmpty then some (ip * 10 ^ sc + fp) else none

/-- Parse an exact fixed-point decimal with `sc` fraction digits back to its
unscaled integer value. -/
def parseDecimal (sc : Nat) (l : List Char) : Option ℤ :=
  let sl := parseSign l
  (parseMagnitude sc sl.2).map (fun mag => if sl.1 then -(mag : ℤ) else (mag : ℤ))

/-- Native parameter/result values (spec section 4.4 type table): text,
boolean, integer, exact decimal, date, time-of-day with optional zone
offset, naive timestamp, timestamp with zone, ordered array, mapping with
text keys. -/
inductive Native where
  | null
  | text (s : String)
  | boolean (b : Bool)
  | integer (i : ℤ)
  | decimal (unscaled : ℤ) (scale : Nat)
  | date (y m d : Nat)
  | timeOfDay (h mi s ms : Nat) (offMin : Option ℤ)
  | timestamp (y mo d h mi s ms : Nat)
  | timestampTz (y mo d h mi s ms : Nat) (zone : String)
  | array (xs : List Native)
  | map (kvs : List (String × Native))

/-- Wire type signatures as declared by the server on each result column
(spec section 3, ColumnDescriptor). -/
inductive TypeSig where
  | varchar
  | boolean
  | integer
  | bigint
  | decimal (p s : Nat)
  | date
  | time
  | timeTz
  | timestamp
  | timestampTz
  | array (t : TypeSig)
  | map (k v : TypeSig)
  deriving DecidableEq, Repr

/-- Wire column values as they appear in the JSON response body (spec
section 6). -/
inductive Wire where
  | null
  | str (s : String)
  | bool (b : Bool)
  | num (i : ℤ)
  | arr (xs : List Wire)
  | obj (kvs : List (String × Wire))

/-- Derived DB-API type category of a column (spec section 3: the raw type
signature string, e.g. `timestamp(3) with time zone`, reported by the
cursor description). -/
def TypeSig.typeName : TypeSig → String
  | .varchar => "varchar"
  | .boolean => "boolean"
  | .integer => "integer"
  | .bigint => "bigint"
  | .decimal p s => "decimal(" ++ toString p ++ "," ++ toString s ++ ")"
  | .date => "date"
  | .time => "time"
  | .timeTz => "time with time zone"
  | .timestamp => "timestamp"
  | .timestampTz => "timestamp with time zone"
  | .array t => "array(" ++ t.typeName ++ ")"
  | .map k v => "map(" ++ k.typeName ++ ", " ++ v.typeName ++ ")"

/-- A type signature mentions no timestamp family member. -/
def TypeSig.timestampFree : TypeSig → Bool
  | .timestamp => false
  | .timestampTz => false
  | .array t => t.timestampFree
  | .map k v => k.timestampFree && v.timestampFree
  | _ => true

/-- Typing of a native value at a wire type signature, including the value
bounds the wire rendering relies on (64-bit integer range, field widths of
date/time components). -/
def hasType : TypeSig → Native → Bool
  | _, .null => true
  | .varchar, .text _ => true
  | .boolean, .boolean _ => true
  | .integer, .integer i => decide (-(2 ^ 63) ≤ i) && decide (i < 2 ^ 63)
  | .bigint, .integer i => decide (-(2 ^ 63) ≤ i) && decide (i < 2 ^ 63)
  | .decimal p s, .decimal u sc => decide (sc = s) && decide (u.natAbs < 10 ^ p)
  | .date, .date y m d =>
      decide (y < 10000) && decide (1 ≤ m) && decide (m ≤ 12) &&
        decide (1 ≤ d) && decide (d ≤ 31)
  | .time, .timeOfDay h mi s ms off =>
      decide (h < 24) && decide (mi < 60) && decide (s < 60) &&
        decide (ms < 1000) && off.isNone
  | .timeTz, .timeOfDay h mi s ms off =>
      decide (h < 24) && decide (mi < 60) && decide (s < 60) &&
        decide (ms < 1000) &&
        (match off with
         | some o => decide (o.natAbs < 6000)
         | none => false)
  | .timestamp, .timestamp y mo d h mi s ms =>
      decide (y < 10000) && decide (1 ≤ mo) && decide (mo ≤ 12) &&
        decide (1 ≤ d) && decide (d ≤ 31) && decide (h < 24) &&
        decide (mi < 60) && decide (s < 60) && decide (ms < 1000)
  | .timestampTz, .timestampTz y mo d h mi s ms _ =>
      decide (y < 10000) && decide (1 ≤ mo) && decide (mo ≤ 12) &&
        decide (1 ≤ d) && decide (d ≤ 31) && decide (h < 24) &&
        decide (mi < 60) && decide (s < 60) && decide (ms < 1000)
  | .array t, .array xs => xs.all (fun x => hasType t x)
  | .map .varchar vt, .map kvs => kvs.all (fun kv => hasType vt kv.2)
  | _, _ => false

/-- Elementwise decoding of a list of wire values; fails if any element
fails. -/
def decodeAll (f : Wire → Option Native) : List Wire → Option (List Native)
  | [] => some []
  | x :: xs => do
      let y ← f x
      let ys ← decodeAll f xs
      some (y :: ys)

/-- Elementwise decoding of the entries of a wire object; fails if any entry
value fails. -/
def decodeAllKV (f : Wire → Option Native) :
    List (String × Wire) → Option (List (String × Native))
  | [] => some []
  | kv :: kvs => do
      let y ← f kv.2
      let ys ← decodeAllKV f kvs
      some ((kv.1, y) :: ys)

/-- Type-directed decoding of a wire column value to a native value (spec
section 4.4 table). Timestamp values — with and without zone — are pinned
by `test_datetime_query_param` to decode to their raw textual wire value. -/
def decode : TypeSig → Wire → Option Native
  | _, .null => some .null
  | .varchar, .str s => some (.text s)
  | .boolean, .bool b => some (.boolean b)
  | .integer, .num i => some (.integer i)
  | .bigint, .num i => some (.integer i)
  | .decimal _ s, .str str => (parseDecimal s str.data).map (fun u => .decimal u s)
  | .date, .str s => (parseDate s.data).map (fun d => .date d.1 d.2.1 d.2.2)
  | .time, .str s => (parseTime s.data).map (fun t => .timeOfDay t.1 t.2.1 t.2.2.1 t.2.2.2 none)
  | .timeTz, .str s =>
      (parseTimeTz s.data).map
        (fun t => .timeOfDay t.1.1 t.1.2.1 t.1.2.2.1 t.1.2.2.2 (some t.2))
  | .timestamp, .str s => some (.text s)
  | .timestampTz, .str s => some (.text s)
  | .array t, .arr xs => (decodeAll (fun x => decode t x) xs).map Native.array
  | .map .varchar vt, .obj kvs =>
      (decodeAllKV (fun x => decode vt x) kvs).map Native.map
  | _, _ => none

mutual

/-- Parameter encoding to a SQL wire literal (spec section 4.4: quote
doubling for text, ISO-8601-like literals for date/time/timestamp,
bracketed array literals, map-constructor syntax, `NULL` for an absent
value). -/
def encode : Native → String
  | .null => "NULL"
  | .text s => String.mk (sq :: (escapeQuotes s.data ++ [sq]))
  | .boolean b => if b then ("TRUE") else ("FALSE")
  | .integer i => toString i
  | .decimal u sc => "DECIMAL " ++ String.mk (sq :: (renderDecimal u sc ++ [sq]))
  | .date y m d => "DATE " ++ String.mk (sq :: (renderDate y m d ++ [sq]))
  | .timeOfDay h mi s ms off =>
      "TIME " ++ String.mk (sq :: (renderTime h mi s ms off ++ [sq]))
  | .timestamp y mo d h mi s ms =>
      "TIMESTAMP " ++ String.mk (sq :: (renderTimestamp y mo d h mi s ms ++ [sq]))
  | .timestampTz y mo d h mi s ms z =>
      "TIMESTAMP " ++
        String.mk (sq :: (renderTimestamp y mo d h mi s ms ++
          spaceChar :: z.data ++ [sq]))
  | .array xs => "ARRAY[" ++ encodeList xs ++ "]"
  | .map kvs =>
      "MAP(ARRAY[" ++ encodeKeys kvs ++ "], ARRAY[" ++ encodeVals kvs ++ "])"

def encodeList : List Native → String
  | [] => ""
  | [x] => encode x
  | x :: y :: xs => encode x ++ ", " ++ encodeList (y :: xs)

def encodeKeys : List (String × Native) → String
  | [] => ""
  | [kv] => String.mk (sq :: (escapeQuotes kv.1.data ++ [sq]))
  | kv :: kv2 :: kvs =>
      String.mk (sq :: (escapeQuotes kv.1.data ++ [sq])) ++ ", " ++
        encodeKeys (kv2 :: kvs)

def encodeVals : List (String × Native) → String
  | [] => ""
  | [kv] => encode kv.2
  | kv :: kv2 :: kvs => encode kv.2 ++ ", " ++ encodeVals (kv2 :: kvs)

end

mutual

/-- Modelled from the spec: the wire column value the server returns when a
statement `SELECT ?` is executed with the literal produced by `encode`
(spec section 6, inbound response body): text literals are unquoted back
(doubled quotes collapse), numbers travel as JSON numbers, booleans as JSON
booleans, decimal/date/time/timestamp as their textual renderings, arrays
as JSON arrays and maps as JSON objects. -/
def wireOf : Native → Wire
  | .null => .null
  | .text s => .str (String.mk (collapseQuotes (escapeQuotes s.data)))
  | .boolean b => .bool b
  | .integer i => .num i
  | .decimal u sc => .str (String.mk (renderDecimal u sc))
  | .date y m d => .str (String.mk (renderDate y m d))
  | .timeOfDay h mi s ms off => .str (String.mk (renderTime h mi s ms off))
  | .timestamp y mo d h mi s ms => .str (String.mk (renderTimestamp y mo d h mi s ms))
  | .timestampTz y mo d h mi s ms z =>
      .str (String.mk (renderTimestamp y mo d h mi s ms ++ spaceChar :: z.data))
  | .array xs => .arr (wireOfList xs)
  | .map kvs => .obj (wireOfKVs kvs)

def wireOfList : List Native → List Wire
  | [] => []
  | x :: xs => wireOf x :: wireOfList xs

def wireOfKVs : List (String × Native) → List (String × Wire)
  | [] => []
  | kv :: kvs => (kv.1, wireOf kv.2) :: wireOfKVs kvs

end

/-- The rest of the input after a digit run starts with a non-digit (or is
empty). -/
def headNotDigit : List Char → Prop
  | [] => True
  | c :: _ => isDigitChar c = false

/-! ## ResultCursor and QueryExecutor (spec sections 4.1 and 4.5) -/
/-- One result page as consumed by the cursor (spec section 3, ResultPage):
ordered rows plus the page's stats snapshot. -/
structure Page where
  rows : List Row
  stats : Stats
  deriving DecidableEq, Repr

/-- Modelled from the spec: the consumer-facing cursor state (spec section
4.5) — the buffered remainder of the current page, the pages not yet
fetched in server next-uri order, and the stats snapshot of the most
recently consumed page. -/
structure CursorState where
  buffer : List Row
  pages : List Page
  lastStats : Option Stats
  deriving DecidableEq, Repr

/-- A fresh cursor over the server's chain of result pages. -/
def mkCursor (pages : List Page) : CursorState :=
  { buffer := [], pages := pages, lastStats := none }

/-- Modelled from the spec: `fetchone` (spec section 4.5) — pop the next
buffered row; with an empty buffer, advance page by page (absorbing each
page's stats snapshot) until a row is found or the chain is exhausted, and
return the sentinel `none` on exhaustion. -/
def fetchoneAux : List Row → List Page → Option Stats → Option Row × CursorState
  | r :: rest, pages, st => (some r, ⟨rest, pages, st⟩)
  | [], [], st => (none, ⟨[], [], st⟩)
  | [], p :: ps, _ => fetchoneAux p.rows ps (some p.stats)

def fetchone (s : CursorState) : Option Row × CursorState :=
  fetchoneAux s.buffer s.pages s.lastStats

/-- Row production of `fetchall`: drain the buffer, then every remaining
page in order. -/
def fetchallAux : List Row → List Page → List Row
  | r :: rest, pages => r :: fetchallAux rest pages
  | [], p :: ps => fetchallAux p.rows ps
  | [], [] => []

/-- Modelled from the spec: `fetchall` (spec section 4.5) — consume the lazy
row sequence to the end. -/
def fetchall (s : CursorState) : List Row :=
  fetchallAux s.buffer s.pages

/-- Modelled from the spec: manually driving `advance()` and accumulating
every page's rows in server order (spec sections 4.1 and 8). -/
def accumulateViaAdvance : List Page → List Row
  | [] => []
  | p :: ps => p.rows ++ accumulateViaAdvance ps

/-- The cursor is exhausted: nothing buffered and no remaining page carries
a row. -/
def noMoreRows (s : CursorState) : Bool :=
  s.buffer.isEmpty && s.pages.all (fun p => p.rows.isEmpty)

/-- One cursor step, keeping only the state. -/
def stepFetch (s : CursorState) : CursorState := (fetchone s).2

/-- The cursor state after `n` calls to `fetchone`. -/
def fetchN (s : CursorState) (n : Nat) : CursorState := stepFetch^[n] s

/-- The stats snapshots visible through the cursor, most recently consumed
first, followed by the snapshots of the pages still to come. -/
def statsChain (s : CursorState) : List Stats :=
  (match s.lastStats with
   | none => []
   | some a => [a]) ++ s.pages.map (fun p => p.stats)

/-- The server-side monotonicity guarantee over the stats snapshots still
visible to the cursor (spec section 3, Stats). -/
def StatsMono (s : CursorState) : Prop :=
  List.Chain' Stats.counterLe (statsChain s)

/-! ## Statement execution entry points (spec sections 4.1 and 4.5) -/
/-- Modelled from the spec: the shapes a caller might pass as `params`
(spec section 3, Parameter) — absent, an ordered sequence (list/tuple), or
the invalid shapes the tests probe: a scalar string, a set, a mapping, a
bare type object. -/
inductive ParamsArg where
  | noParams
  | seq (ps : List Native)
  | scalarText (s : String)
  | setOf (ps : List Native)
  | mapping (kvs : List (String × Native))
  | bareType

/-- Absent params or an ordered, indexable sequence are the accepted shapes
(spec section 3: any other shape is a programming error). -/
def ParamsArg.isValidShape : ParamsArg → Bool
  | .noParams => true
  | .seq _ => true
  | _ => false

/-- Query phases (spec section 4.1 state machine). -/
inductive Phase where
  | initial
  | queued
  | running
  | finished
  | failed
  | cancelled
  deriving DecidableEq, Repr

def Phase.isTerminal : Phase → Bool
  | .finished => true
  | .failed => true
  | .cancelled => true
  | _ => false

/-- Per-query state owned by the executor (spec section 3, Query). -/
structure QueryState where
  queryId : String
  nextUri : Option String
  phase : Phase
  deriving DecidableEq, Repr

/-- Query state derived from a submit response: an absent `nextUri` means
terminal (spec section 3). -/
def queryStateOfResponse (r : Response) : QueryState :=
  { queryId := r.id, nextUri := r.nextUri,
    phase := if r.nextUri.isSome then .running else .finished }

/-- Modelled from the spec: `execute` (spec sections 4.1 and 4.5) — fails
fast with a programming error before any network call when `params` is not
an ordered sequence; otherwise performs the submit exchange through the
retry loop. Returns the surfaced result together with the number of HTTP
requests sent. -/
def execute (transport : Nat → RawResult) (maxAttempts : Nat)
    (params : ParamsArg) : Except DriverError QueryState × Nat :=
  if params.isValidShape then
    match runExchange transport maxAttempts with
    | (.ok r, n) => (.ok (queryStateOfResponse r), n)
    | (.error e, n) => (.error e, n)
  else
    (.error (.programmingError ("params must be a list or tuple")), 0)

/-- Modelled from the spec: `cancel` (spec section 4.1) — with a live query
(a `nextUri` and a non-terminal phase) issue exactly one DELETE-style
cancellation request and transition to CANCELLED; with no executed query or
a terminal query, signal the documented `NoActiveQuery` error and send
nothing. Returns the result together with the number of cancellation
requests issued. -/
def cancel (oq : Option QueryState) : Except DriverError QueryState × Nat :=
  match oq with
  | none => (.error (.noActiveQuery ("Cancel query failed; no running query")), 0)
  | some q =>
      if q.nextUri.isSome && !q.phase.isTerminal then
        (.ok { q with nextUri := none, phase := .cancelled }, 1)
      else
        (.error (.noActiveQuery ("Cancel query failed; no running query")), 0)

/-- Modelled from the spec: the connection-level configuration surface (spec
section 6), with the module defaults of `trino/constants.py` applied when a
connection is created without explicit options. -/
structure Connection where
  host : String
  port : Nat
  user : String
  source : String
  catalog : Option String
  schema : Option String
  auth : Option String
  maxAttempts : Nat
  requestTimeout : ℚ
  statementPath : String
  deriving DecidableEq, Repr

/-- A connection created with only a host and a user, every other option
left to its default. -/
def defaultConnection (host user : String) : Connection :=
  { host := host, port := DEFAULT_PORT, user := user, source := DEFAULT_SOURCE,
    catalog := DEFAULT_CATALOG, schema := DEFAULT_SCHEMA, auth := DEFAULT_AUTH,
    maxAttempts := DEFAULT_MAX_ATTEMPTS,
    requestTimeout := DEFAULT_REQUEST_TIMEOUT,
    statementPath := URL_STATEMENT_PATH }

instance : IsTrans Stats Stats.counterLe :=
  ⟨fun _ _ _ h1 h2 =>
    ⟨h1.1.trans h2.1, h1.2.1.trans h2.2.1, h1.2.2.1.trans h2.2.2.1,
     h1.2.2.2.1.trans h2.2.2.2.1, h1.2.2.2.2.trans h2.2.2.2.2⟩⟩

theorem Stats.counterLe_refl (a : Stats) : a.counterLe a :=
  ⟨le_refl _, le_refl _, le_refl _, le_refl _, le_refl _⟩

theorem Stats.counterLe_trans {a b c : Stats}
    (h1 : a.counterLe b) (h2 : b.counterLe c) : a.counterLe c :=
  ⟨h1.1.trans h2.1, h1.2.1.trans h2.2.1, h1.2.2.1.trans h2.2.2.1,
   h1.2.2.2.1.trans h2.2.2.2.1, h1.2.2.2.2.trans h2.2.2.2.2⟩

theorem retryLoop_zero (transport : Nat → RawResult) (i : Nat)
    (last : Option Outcome) :
    retryLoop transport 0 i last =
      (.error (.transportError ("max attempts exceeded") last), i) := rfl

theorem retryLoop_succ_retryable (transport : Nat → RawResult)
    (n i : Nat) (last : Option Outcome)
    (h : (classify (transport i)).retryable = true) :
    retryLoop transport (n + 1) i last =
      retryLoop transport n (i + 1) (some (classify (transport i))) := by
  simp only [retryLoop, h, if_true]

theorem retryLoop_succ_fatal (transport : Nat → RawResult)
    (n i : Nat) (last : Option Outcome)
    (h : (classify (transport i)).retryable = false) :
    retryLoop transport (n + 1) i last =
      (surfaceFatal (classify (transport i)), i + 1) := by
  simp only [retryLoop, h, Bool.false_eq_true, if_false]

theorem retryLoop_all_retryable (transport : Nat → RawResult)
    (hall : ∀ i, (classify (transport i)).retryable = true) :
    ∀ remaining i last,
      retryLoop transport remaining i last =
        (.error (.transportError ("max attempts exceeded")
            (match remaining with
             | 0 => last
             | m + 1 => some (classify (transport (m + i))))),
          remaining + i) := by
  intro remaining
  induction remaining with
  | zero => intro i last; simp [retryLoop_zero]
  | succ n ih =>
      intro i last
      rw [retryLoop_succ_retryable transport n i last (hall i),
        ih (i + 1) (some (classify (transport i)))]
      cases n with
      | zero => simp [Nat.add_comm]
      | succ m =>
          have h1 : m + (i + 1) = m + 1 + i := by omega
          have h2 : m + 1 + (i + 1) = m + 1 + 1 + i := by omega
          simp [h1, h2]

/-- C2: for every transport that always returns a retryable failure and
every configured `maxAttempts`, the retry loop around one logical HTTP
exchange attempts exactly `maxAttempts` exchanges and then terminates by
raising a `transportError` ("max attempts exceeded") carrying the last
classified outcome; it never loops beyond the ceiling. -/
theorem retry_ceiling_exact_max_attempts (transport : Nat → RawResult)
    (maxAttempts : Nat)
    (hall : ∀ i, (classify (transport i)).retryable = true) :
    runExchange transport maxAttempts =
      (.error (.transportError ("max attempts exceeded")
          (match maxAttempts with
           | 0 => none
           | m + 1 => some (classify (transport m)))),
        maxAttempts) := by
  have h := retryLoop_all_retryable transport hall maxAttempts 0 none
  cases maxAttempts with
  | zero => simpa [runExchange] using h
  | succ m => simpa [runExchange] using h

/-- Witness for C2: a transport that always fails at the network level,
with the default attempt ceiling of 3, attempts exactly 3 exchanges and
surfaces the "max attempts exceeded" transport error carrying the last
outcome. -/
theorem retry_ceiling_exact_max_attempts_witness :
    runExchange (fun _ => RawResult.netFail) DEFAULT_MAX_ATTEMPTS =
      (.error (.transportError ("max attempts exceeded")
          (some .retryableTransport)), 3) := by
  have h := retry_ceiling_exact_max_attempts (fun _ => RawResult.netFail)
    DEFAULT_MAX_ATTEMPTS (fun _ => rfl)
  simpa [DEFAULT_MAX_ATTEMPTS, classify] using h

/-- C1: a response whose body carries a populated structured error payload
surfaces as a `queryError` with the server message verbatim — not a
`transportError` — after exactly one exchange: it is never retried,
whatever the configured attempt ceiling. -/
theorem error_payload_surfaces_query_error (transport : Nat → RawResult)
    (maxAttempts : Nat) (r : Response) (e : ErrorPayload)
    (hpos : 0 < maxAttempts) (hfirst : transport 0 = RawResult.ok r)
    (herr : r.error = some e) :
    runExchange transport maxAttempts =
      (.error (.queryError e.message e.errorCode e.errorName), 1) ∧
    DriverError.isTransportError
      (.queryError e.message e.errorCode e.errorName) = false := by
  obtain ⟨n, rfl⟩ : ∃ n, maxAttempts = n + 1 := ⟨maxAttempts - 1, by omega⟩
  have hclass : classify (transport 0) = .fatalQuery e := by
    rw [hfirst]; simp [classify, herr]
  constructor
  · unfold runExchange
    rw [retryLoop_succ_fatal transport n 0 none (by rw [hclass]; rfl), hclass]
    rfl
  · rfl

/-- Witness for C1: a first response carrying the structured error payload
of the spec scenario surfaces as a `queryError` with that message after one
exchange, even with an attempt ceiling of 5. -/
theorem error_payload_surfaces_query_error_witness :
    runExchange
        (fun _ => RawResult.ok
          { id := "q1", nextUri := none, columns := none, data := none,
            stats := { queryId := "q1", state := "FAILED",
                       completedSplits := 0, cpuTimeMillis := 0,
                       processedBytes := 0, processedRows := 0,
                       wallTimeMillis := 0 },
            error := some { message := "line 1:1: mismatched input FRMO",
                            errorCode := 1, errorName := "SYNTAX_ERROR" } }) 5 =
      (.error (.queryError ("line 1:1: mismatched input FRMO") 1
          ("SYNTAX_ERROR")), 1) :=
  (error_payload_surfaces_query_error _ 5 _
    { message := "line 1:1: mismatched input FRMO",
      errorCode := 1, errorName := "SYNTAX_ERROR" }
    (by decide) rfl rfl).1

theorem digitVal_digitChar : ∀ n, n < 10 → digitVal (digitChar n) = n := by decide

theorem isDigitChar_digitChar : ∀ n, n < 10 → isDigitChar (digitChar n) = true := by
  decide

theorem isDigitChar_dashChar : isDigitChar dashChar = false := by decide

theorem isDigitChar_dotChar : isDigitChar dotChar = false := by decide

theorem parseFixedAux_add (w1 w2 : Nat) :
    ∀ (acc : Nat) (l : List Char),
      parseFixedAux (w1 + w2) acc l =
        match parseFixedAux w1 acc l with
        | some (a, l2) => parseFixedAux w2 a l2
        | none => none := by
  induction w1 with
  | zero => intro acc l; simp [parseFixedAux]
  | succ n ih =>
      intro acc l
      have harr : n + 1 + w2 = (n + w2) + 1 := by omega
      cases l with
      | nil => rw [harr]; simp [parseFixedAux]
      | cons c l =>
          rw [harr]
          by_cases hc : isDigitChar c
          · simp only [parseFixedAux, hc, if_true]
            exact ih (acc * 10 + digitVal c) l
          · simp [parseFixedAux, hc]

theorem parseFixedAux_padDigits :
    ∀ (w acc n : Nat) (rest : List Char), n < 10 ^ w →
      parseFixedAux w acc (padDigits w n ++ rest) = some (acc * 10 ^ w + n, rest) := by
  intro w
  induction w with
  | zero =>
      intro acc n rest h
      have hn : n = 0 := by simpa using h
      subst hn
      simp [padDigits, parseFixedAux]
  | succ w ih =>
      intro acc n rest h
      have hdiv : n / 10 < 10 ^ w := by
        rw [pow_succ] at h
        omega
      have hmod : n % 10 < 10 := Nat.mod_lt _ (by omega)
      rw [padDigits, List.append_assoc, parseFixedAux_add w 1,
        ih acc (n / 10) _ hdiv]
      simp only [List.singleton_append, parseFixedAux,
        isDigitChar_digitChar (n % 10) hmod, if_true,
        digitVal_digitChar (n % 10) hmod]
      have harith : (acc * 10 ^ w + n / 10) * 10 + n % 10 = acc * 10 ^ (w + 1) + n := by
        calc (acc * 10 ^ w + n / 10) * 10 + n % 10
            = acc * (10 ^ w * 10) + (10 * (n / 10) + n % 10) := by ring
          _ = acc * 10 ^ (w + 1) + n := by rw [Nat.div_add_mod, pow_succ]
      rw [harith]
      simp

theorem parseFixed_padDigits (w n : Nat) (rest : List Char) (h : n < 10 ^ w) :
    parseFixed w (padDigits w n ++ rest) = some (n, rest) := by
  unfold parseFixed
  rw [parseFixedAux_padDigits w 0 n rest h]
  simp

theorem padDigits_length (w : Nat) : ∀ n, (padDigits w n).length = w := by
  induction w with
  | zero => intro n; simp [padDigits]
  | succ w ih => intro n; simp [padDigits, ih]

theorem padDigits_digits (w : Nat) :
    ∀ n, ∀ c ∈ padDigits w n, isDigitChar c = true := by
  induction w with
  | zero => intro n c hc; simp [padDigits] at hc
  | succ w ih =>
      intro n c hc
      rw [padDigits] at hc
      rcases List.mem_append.1 hc with h | h
      · exact ih _ c h
      · simp at h
        subst h
        exact isDigitChar_digitChar _ (Nat.mod_lt _ (by omega))

theorem takeDigitsAcc_padDigits :
    ∀ (w acc n : Nat) (rest : List Char), n < 10 ^ w →
      takeDigitsAcc acc (padDigits w n ++ rest) =
        takeDigitsAcc (acc * 10 ^ w + n) rest := by
  intro w
  induction w with
  | zero =>
      intro acc n rest h
      have hn : n = 0 := by simpa using h
      subst hn
      simp [padDigits]
  | succ w ih =>
      intro acc n rest h
      have hdiv : n / 10 < 10 ^ w := by
        rw [pow_succ] at h
        omega
      have hmod : n % 10 < 10 := Nat.mod_lt _ (by omega)
      rw [padDigits, List.append_assoc, ih acc (n / 10) _ hdiv]
      simp only [List.singleton_append, takeDigitsAcc,
        isDigitChar_digitChar (n % 10) hmod, if_true,
        digitVal_digitChar (n % 10) hmod]
      have harith : (acc * 10 ^ w + n / 10) * 10 + n % 10 = acc * 10 ^ (w + 1) + n := by
        calc (acc * 10 ^ w + n / 10) * 10 + n % 10
            = acc * (10 ^ w * 10) + (10 * (n / 10) + n % 10) := by ring
          _ = acc * 10 ^ (w + 1) + n := by rw [Nat.div_add_mod, pow_succ]
      rw [harith]
      simp

theorem takeDigitsAcc_stop (acc : Nat) (rest : List Char)
    (h : headNotDigit rest) : takeDigitsAcc acc rest = (acc, rest) := by
  cases rest with
  | nil => rfl
  | cons c l =>
      have : isDigitChar c = false := h
      simp [takeDigitsAcc, this]

theorem parseNatLead_natDigits (n : Nat) (rest : List Char)
    (h : headNotDigit rest) :
    parseNatLead (natDigits n ++ rest) = some (n, rest) := by
  unfold natDigits
  have hlt : n < 10 ^ (Nat.log 10 n + 1) := Nat.lt_pow_succ_log_self (by omega) n
  have hne : padDigits (Nat.log 10 n + 1) n ≠ [] := by
    intro hcontra
    have := padDigits_length (Nat.log 10 n + 1) n
    rw [hcontra] at this
    simp at this
  obtain ⟨c, cs, hcons⟩ := List.exists_cons_of_ne_nil hne
  have hcdig : isDigitChar c = true := by
    apply padDigits_digits (Nat.log 10 n + 1) n
    rw [hcons]
    exact List.mem_cons_self _ _
  have htake := takeDigitsAcc_padDigits (Nat.log 10 n + 1) 0 n rest hlt
  rw [hcons] at htake ⊢
  simp only [List.cons_append, parseNatLead, hcdig, if_true]
  rw [show (c :: (cs ++ rest)) = (c :: cs) ++ rest from rfl, htake,
    takeDigitsAcc_stop _ rest h]
  simp

theorem expectChar_cons (c : Char) (l : List Char) :
    expectChar c (c :: l) = some l := by
  simp [expectChar]

theorem parseDate_renderDate (y m d : Nat)
    (hy : y < 10000) (hm : m < 100) (hd : d < 100) :
    parseDate (renderDate y m d) = some (y, m, d) := by
  have h1 := parseFixed_padDigits 4 y
    (dashChar :: (padDigits 2 m ++ dashChar :: padDigits 2 d)) (by norm_num; omega)
  have h2 := parseFixed_padDigits 2 m (dashChar :: padDigits 2 d) (by norm_num; omega)
  have h3 := parseFixed_padDigits 2 d [] (by norm_num; omega)
  rw [List.append_nil] at h3
  unfold parseDate renderDate
  rw [h1]
  simp only [Option.bind_eq_bind, Option.some_bind, expectChar_cons]
  rw [h2]
  simp only [Option.some_bind, expectChar_cons]
  rw [h3]
  simp

theorem natDigits_head_digit (n : Nat) :
    ∃ c cs, natDigits n = c :: cs ∧ isDigitChar c = true := by
  have hne : natDigits n ≠ [] := by
    unfold natDigits
    intro hcontra
    have := padDigits_length (Nat.log 10 n + 1) n
    rw [hcontra] at this
    simp at this
  obtain ⟨c, cs, hcons⟩ := List.exists_cons_of_ne_nil hne
  refine ⟨c, cs, hcons, ?_⟩
  unfold natDigits at hcons
  apply padDigits_digits (Nat.log 10 n + 1) n
  rw [hcons]
  exact List.mem_cons_self _ _

theorem parseTimeBase_renderTimeBase (h mi s ms : Nat) (rest : List Char)
    (hh : h < 100) (hmi : mi < 100) (hs : s < 100) (hms : ms < 1000) :
    parseTimeBase (renderTimeBase h mi s ms ++ rest) = some ((h, mi, s, ms), rest) := by
  have h1 := parseFixed_padDigits 2 h
    (colonChar :: (padDigits 2 mi ++
      (colonChar :: (padDigits 2 s ++ (dotChar :: (padDigits 3 ms ++ rest))))))
    (by norm_num; omega)
  have h2 := parseFixed_padDigits 2 mi
    (colonChar :: (padDigits 2 s ++ (dotChar :: (padDigits 3 ms ++ rest))))
    (by norm_num; omega)
  have h3 := parseFixed_padDigits 2 s (dotChar :: (padDigits 3 ms ++ rest))
    (by norm_num; omega)
  have h4 := parseFixed_padDigits 3 ms rest (by norm_num; omega)
  unfold parseTimeBase renderTimeBase
  simp only [List.append_assoc, List.cons_append]
  rw [h1]
  simp only [Option.bind_eq_bind, Option.some_bind, expectChar_cons]
  rw [h2]
  simp only [Option.some_bind, expectChar_cons]
  rw [h3]
  simp only [Option.some_bind, expectChar_cons]
  rw [h4]
  simp

theorem parseOffset_renderOffset (o : ℤ) (habs : o.natAbs < 6000) :
    parseOffset (renderOffset o) = some o := by
  have h1 := parseFixed_padDigits 2 (o.natAbs / 60)
    (colonChar :: padDigits 2 (o.natAbs % 60)) (by norm_num; omega)
  have h2 := parseFixed_padDigits 2 (o.natAbs % 60) [] (by norm_num; omega)
  rw [List.append_nil] at h2
  have hsum : o.natAbs / 60 * 60 + o.natAbs % 60 = o.natAbs := by omega
  unfold parseOffset renderOffset
  by_cases hneg : o < 0
  · simp only [if_pos hneg]
    simp only [Option.bind_eq_bind]
    rw [h1]
    simp only [Option.some_bind, expectChar_cons]
    rw [h2]
    simp only [Option.some_bind, List.isEmpty_nil, if_true]
    rw [hsum]
    congr 1
    omega
  · simp only [if_neg hneg]
    simp only [Option.bind_eq_bind]
    rw [h1]
    simp only [Option.some_bind, expectChar_cons]
    rw [h2]
    simp only [Option.some_bind, List.isEmpty_nil, if_true]
    rw [hsum]
    simp [show ¬ plusChar = dashChar from by decide,
      abs_of_nonneg (not_lt.mp hneg)]

theorem parseTime_renderTime (h mi s ms : Nat)
    (hh : h < 100) (hmi : mi < 100) (hs : s < 100) (hms : ms < 1000) :
    parseTime (renderTime h mi s ms none) = some (h, mi, s, ms) := by
  have hb := parseTimeBase_renderTimeBase h mi s ms [] hh hmi hs hms
  unfold parseTime
  rw [show renderTime h mi s ms none = renderTimeBase h mi s ms ++ [] from by
    simp [renderTime]]
  rw [hb]
  simp

theorem parseTimeTz_renderTime (h mi s ms : Nat) (o : ℤ)
    (hh : h < 100) (hmi : mi < 100) (hs : s < 100) (hms : ms < 1000)
    (habs : o.natAbs < 6000) :
    parseTimeTz (renderTime h mi s ms (some o)) = some ((h, mi, s, ms), o) := by
  have hb := parseTimeBase_renderTimeBase h mi s ms (renderOffset o) hh hmi hs hms
  unfold parseTimeTz
  rw [show renderTime h mi s ms (some o) = renderTimeBase h mi s ms ++ renderOffset o
    from by simp [renderTime]]
  rw [hb]
  simp only [Option.bind_eq_bind, Option.some_bind]
  rw [parseOffset_renderOffset o habs]
  simp

theorem parseSign_dash (t : List Char) : parseSign (dashChar :: t) = (true, t) := by
  simp [parseSign]

theorem parseSign_digit (c : Char) (t : List Char) (hc : isDigitChar c = true) :
    parseSign (c :: t) = (false, c :: t) := by
  have : (c = dashChar) = False := by
    simp only [eq_iff_iff, iff_false]
    intro hcontra
    rw [hcontra, isDigitChar_dashChar] at hc
    exact Bool.false_ne_true hc
  simp [parseSign, this]

theorem parseSign_natDigits (n : Nat) (rest : List Char) :
    parseSign (natDigits n ++ rest) = (false, natDigits n ++ rest) := by
  obtain ⟨c, cs, hcons, hdig⟩ := natDigits_head_digit n
  rw [hcons, List.cons_append, parseSign_digit c _ hdig]

theorem parseMagnitude_zero (n : Nat) : parseMagnitude 0 (natDigits n) = some n := by
  have hp := parseNatLead_natDigits n [] trivial
  rw [List.append_nil] at hp
  unfold parseMagnitude
  rw [hp]
  simp

theorem parseMagnitude_pos (sc q r : Nat) (hsc : sc ≠ 0) (hr : r < 10 ^ sc) :
    parseMagnitude sc (natDigits q ++ dotChar :: padDigits sc r) =
      some (q * 10 ^ sc + r) := by
  have hp := parseNatLead_natDigits q (dotChar :: padDigits sc r)
    isDigitChar_dotChar
  have hf := parseFixed_padDigits sc r [] hr
  rw [List.append_nil] at hf
  unfold parseMagnitude
  rw [hp]
  simp only [Option.bind_eq_bind, Option.some_bind, hsc, if_false, expectChar_cons]
  rw [hf]
  simp

theorem parseSign_natDigits_nil (n : Nat) :
    parseSign (natDigits n) = (false, natDigits n) := by
  have h := parseSign_natDigits n []
  simpa using h

theorem parseDecimal_renderDecimal (u : ℤ) (sc : Nat) :
    parseDecimal sc (renderDecimal u sc) = some u := by
  have hmag : u.natAbs / 10 ^ sc * 10 ^ sc + u.natAbs % 10 ^ sc = u.natAbs := by
    rw [Nat.mul_comm]
    exact Nat.div_add_mod _ _
  rcases Nat.eq_zero_or_pos sc with hsc | hscpos
  · subst hsc
    by_cases hneg : u < 0
    · have hrender : renderDecimal u 0 = dashChar :: natDigits u.natAbs := by
        simp [renderDecimal, hneg]
      rw [hrender]
      simp only [parseDecimal, parseSign_dash, parseMagnitude_zero,
        Option.map_some]
      simp [abs_of_neg hneg]
    · have hrender : renderDecimal u 0 = natDigits u.natAbs := by
        simp [renderDecimal, hneg]
      rw [hrender]
      simp only [parseDecimal, parseSign_natDigits_nil, parseMagnitude_zero,
        Option.map_some]
      simp [abs_of_nonneg (not_lt.mp hneg)]
  · have hscne : sc ≠ 0 := by omega
    have hfrac : u.natAbs % 10 ^ sc < 10 ^ sc :=
      Nat.mod_lt _ (Nat.pos_pow_of_pos sc (by omega))
    have hmp := parseMagnitude_pos sc (u.natAbs / 10 ^ sc) (u.natAbs % 10 ^ sc)
      hscne hfrac
    by_cases hneg : u < 0
    · have hrender : renderDecimal u sc =
          dashChar :: (natDigits (u.natAbs / 10 ^ sc) ++
            dotChar :: padDigits sc (u.natAbs % 10 ^ sc)) := by
        simp [renderDecimal, hneg, hscne]
      rw [hrender]
      simp only [parseDecimal, parseSign_dash, hmp, Option.map_some]
      rw [hmag]
      simp [abs_of_neg hneg]
    · have hrender : renderDecimal u sc =
          natDigits (u.natAbs / 10 ^ sc) ++
            dotChar :: padDigits sc (u.natAbs % 10 ^ sc) := by
        simp [renderDecimal, hneg, hscne]
      rw [hrender]
      simp only [parseDecimal, parseSign_natDigits, hmp, Option.map_some]
      rw [hmag]
      simp [abs_of_nonneg (not_lt.mp hneg)]

theorem collapseQuotes_cons₂_sq (t : List Char) :
    collapseQuotes (sq :: sq :: t) = sq :: collapseQuotes t := by
  simp [collapseQuotes]

theorem collapseQuotes_cons₂_ne (c1 c2 : Char) (t : List Char) (h : c1 ≠ sq) :
    collapseQuotes (c1 :: c2 :: t) = c1 :: collapseQuotes (c2 :: t) := by
  simp [collapseQuotes, h]

theorem escapeQuotes_sq (rest : List Char) :
    escapeQuotes (sq :: rest) = sq :: sq :: escapeQuotes rest := by
  simp [escapeQuotes]

theorem escapeQuotes_ne (c : Char) (rest : List Char) (hc : c ≠ sq) :
    escapeQuotes (c :: rest) = c :: escapeQuotes rest := by
  simp [escapeQuotes, hc]

theorem escapeQuotes_eq_nil (l : List Char) (h : escapeQuotes l = []) : l = [] := by
  cases l with
  | nil => rfl
  | cons c rest =>
      by_cases hc : c = sq
      · subst hc
        rw [escapeQuotes_sq] at h
        exact absurd h (by simp)
      · rw [escapeQuotes_ne c rest hc] at h
        exact absurd h (by simp)

theorem collapseQuotes_escapeQuotes (l : List Char) :
    collapseQuotes (escapeQuotes l) = l := by
  induction l with
  | nil => rfl
  | cons c rest ih =>
      by_cases hc : c = sq
      · subst hc
        rw [escapeQuotes_sq, collapseQuotes_cons₂_sq, ih]
      · rw [escapeQuotes_ne c rest hc]
        cases hrest : escapeQuotes rest with
        | nil =>
            have : rest = [] := escapeQuotes_eq_nil rest hrest
            subst this
            simp [collapseQuotes]
        | cons e es =>
            rw [collapseQuotes_cons₂_ne c e es hc, ← hrest, ih]

theorem string_mk_data (s : String) : String.mk s.data = s := by
  cases s
  rfl

theorem wireOfList_eq (xs : List Native) :
    wireOfList xs = xs.map (fun x => wireOf x) := by
  induction xs with
  | nil => rw [wireOfList]; rfl
  | cons x xs ih => rw [wireOfList, ih]; rfl

set_option maxHeartbeats 2000000 in
/-- C7 (amended): for every supported native parameter value outside the
timestamp family (text including embedded quotes, boolean, integers up to
the 64-bit boundary, decimal, date, time with and without zone, nested
array, nested map), encoding to a wire literal and decoding the resulting
column value round-trips to an equal native value. Timestamp values (with
and without zone) are excluded: `test_datetime_query_param` pins them to
decode to raw text instead. -/
theorem decode_wireOf : ∀ (t : TypeSig) (v : Native),
    hasType t v = true → t.timestampFree = true →
    decode t (wireOf v) = some v := by
  intro t
  induction t with
  | varchar =>
      intro v ht _
      cases v <;> try simp only [hasType, Bool.false_eq_true] at ht
      case null => simp [wireOf, decode]
      case text s =>
        simp [wireOf, decode, collapseQuotes_escapeQuotes, string_mk_data]
  | boolean =>
      intro v ht _
      cases v <;> try simp only [hasType, Bool.false_eq_true] at ht
      case null => simp [wireOf, decode]
      case boolean b => simp [wireOf, decode]
  | integer =>
      intro v ht _
      cases v <;> try simp only [hasType, Bool.false_eq_true] at ht
      case null => simp [wireOf, decode]
      case integer i => simp [wireOf, decode]
  | bigint =>
      intro v ht _
      cases v <;> try simp only [hasType, Bool.false_eq_true] at ht
      case null => simp [wireOf, decode]
      case integer i => simp [wireOf, decode]
  | decimal p s =>
      intro v ht _
      cases v <;> try simp only [hasType, Bool.false_eq_true] at ht
      case null => simp [wireOf, decode]
      case decimal u sc =>
        simp only [Bool.and_eq_true, decide_eq_true_eq] at ht
        obtain ⟨hsc, _⟩ := ht
        subst hsc
        simp [wireOf, decode, parseDecimal_renderDecimal]
  | date =>
      intro v ht _
      cases v <;> try simp only [hasType, Bool.false_eq_true] at ht
      case null => simp [wireOf, decode]
      case date y m d =>
        simp only [Bool.and_eq_true, decide_eq_true_eq] at ht
        obtain ⟨⟨⟨⟨hy, _⟩, hm⟩, _⟩, hd⟩ := ht
        simp [wireOf, decode,
          parseDate_renderDate y m d hy (by omega) (by omega)]
  | time =>
      intro v ht _
      cases v <;> try simp only [hasType, Bool.false_eq_true] at ht
      case null => simp [wireOf, decode]
      case timeOfDay h mi s ms off =>
        simp only [Bool.and_eq_true, decide_eq_true_eq, Option.isNone_iff_eq_none]
          at ht
        obtain ⟨⟨⟨⟨hh, hmi⟩, hs⟩, hms⟩, hoff⟩ := ht
        subst hoff
        simp [wireOf, decode,
          parseTime_renderTime h mi s ms (by omega) (by omega) (by omega) hms]
  | timeTz =>
      intro v ht _
      cases v <;> try simp only [hasType, Bool.false_eq_true] at ht
      case null => simp [wireOf, decode]
      case timeOfDay h mi s ms off =>
        cases off with
        | none => simp only [hasType] at ht; simp at ht
        | some o =>
            simp only [Bool.and_eq_true, decide_eq_true_eq] at ht
            obtain ⟨⟨⟨⟨hh, hmi⟩, hs⟩, hms⟩, habs⟩ := ht
            simp [wireOf, decode,
              parseTimeTz_renderTime h mi s ms o (by omega) (by omega) (by omega)
                hms habs]
  | timestamp =>
      intro v _ htf
      simp [TypeSig.timestampFree] at htf
  | timestampTz =>
      intro v _ htf
      simp [TypeSig.timestampFree] at htf
  | array t ih =>
      intro v ht htf
      simp only [TypeSig.timestampFree] at htf
      cases v <;> try simp only [hasType, Bool.false_eq_true] at ht
      case null => simp [wireOf, decode]
      case array xs =>
        have hlist : ∀ ys : List Native, ys.all (fun x => hasType t x) = true →
            decodeAll (fun x => decode t x) (wireOfList ys) = some ys := by
          intro ys
          induction ys with
          | nil => intro _; rw [wireOfList]; rfl
          | cons x xs ihl =>
              intro hys
              simp only [List.all_cons, Bool.and_eq_true] at hys
              rw [wireOfList]
              simp [decodeAll, ih x hys.1 htf, ihl hys.2]
        simp only [wireOf, decode]
        rw [hlist xs ht]
        rfl
  | map k vt ihk ihv =>
      intro v ht htf
      simp only [TypeSig.timestampFree, Bool.and_eq_true] at htf
      cases k
      case varchar =>
        cases v <;> try simp only [hasType, Bool.false_eq_true] at ht
        case null => simp [wireOf, decode]
        case map kvs =>
          have hlist : ∀ ys : List (String × Native),
              ys.all (fun kv => hasType vt kv.2) = true →
              decodeAllKV (fun x => decode vt x) (wireOfKVs ys) = some ys := by
            intro ys
            induction ys with
            | nil => intro _; rw [wireOfKVs]; rfl
            | cons kv kvs ihl =>
                intro hys
                simp only [List.all_cons, Bool.and_eq_true] at hys
                rw [wireOfKVs]
                simp [decodeAllKV, ihv kv.2 hys.1 htf.2, ihl hys.2]
          simp only [wireOf, decode]
          rw [hlist kvs ht]
          rfl
      all_goals cases v <;> try simp only [hasType, Bool.false_eq_true] at ht
      all_goals simp only [wireOf]; rfl

/-- Witness for C7: the nested array-of-map-of-decimal value, the text value
with an embedded quote, and the 64-bit boundary integer all round-trip
through encoding and decoding. -/
theorem decode_wireOf_witness :
    (hasType (.array (.map .varchar (.decimal 10 2)))
        (.array [.map [("k", .decimal (-1205) 2)], .map []]) = true ∧
      decode (.array (.map .varchar (.decimal 10 2)))
          (wireOf (.array [.map [("k", .decimal (-1205) 2)], .map []])) =
        some (.array [.map [("k", .decimal (-1205) 2)], .map []])) ∧
    decode .varchar (wireOf (.text ("six".push sq))) =
      some (.text ("six".push sq)) ∧
    decode .bigint (wireOf (.integer 9223372036854775807)) =
      some (.integer 9223372036854775807) :=
  ⟨⟨by decide, decode_wireOf _ _ (by decide) rfl⟩,
   decode_wireOf _ _ (by decide) rfl,
   decode_wireOf _ _ (by decide) rfl⟩

/-- Counterexample for C7 as stated: the timestamp-with-zone parameter value
2020-01-01 00:00:00 UTC does not round-trip — decoding its wire value yields
the raw text, not an equal native date-time value. -/
theorem decode_wireOf_timestamp_counterexample :
    decode .timestampTz (wireOf (.timestampTz 2020 1 1 0 0 0 0 ("UTC"))) ≠
      some (.timestampTz 2020 1 1 0 0 0 0 ("UTC")) := by
  rw [show wireOf (.timestampTz 2020 1 1 0 0 0 0 ("UTC")) =
      .str ("2020-01-01 00:00:00.000 UTC") from by rw [wireOf]; congr 1]
  rw [decode]
  intro h
  exact Native.noConfusion (Option.some.inj h)

/-- Counterexample for C8 as stated: decoding the timestamp-with-time-zone
wire value `2020-01-01 00:00:00.000 UTC` does not produce a native date-time
value — it produces raw text. -/
theorem timestampTz_decode_not_datetime_counterexample :
    decode .timestampTz (.str ("2020-01-01 00:00:00.000 UTC")) ≠
      some (.timestampTz 2020 1 1 0 0 0 0 ("UTC")) := by
  rw [decode]
  intro h
  exact Native.noConfusion (Option.some.inj h)

/-- C8 (amended): decoding the timestamp-with-time-zone wire value
`2020-01-01 00:00:00.000 UTC` yields that text unchanged (the wire rendering
of the native value 2020-01-01 00:00:00 UTC), and the column type category
reports `timestamp with time zone`. -/
theorem timestampTz_decodes_to_raw_text :
    decode .timestampTz (.str ("2020-01-01 00:00:00.000 UTC")) =
      some (.text ("2020-01-01 00:00:00.000 UTC")) ∧
    wireOf (.timestampTz 2020 1 1 0 0 0 0 ("UTC")) =
      .str ("2020-01-01 00:00:00.000 UTC") ∧
    TypeSig.typeName .timestampTz = "timestamp with time zone" :=
  ⟨by rw [decode], by rw [wireOf]; congr 1, rfl⟩

theorem fetchallAux_eq (pages : List Page) :
    ∀ buf, fetchallAux buf pages = buf ++ accumulateViaAdvance pages := by
  induction pages with
  | nil =>
      intro buf
      induction buf with
      | nil => rw [fetchallAux]; rfl
      | cons r rest ih => simp [fetchallAux, ih]
  | cons p ps ihp =>
      intro buf
      induction buf with
      | nil => simp [fetchallAux, ihp p.rows, accumulateViaAdvance]
      | cons r rest ihb => simp [fetchallAux, ihb]

/-- C4: for every executed query over any number of result pages, `fetchall`
yields exactly the same rows in the same order as manually driving
`advance` and accumulating each page's rows; in particular the total row
count and the row order agree between the two consumption styles. -/
theorem fetchall_eq_advance_accumulate (pages : List Page) :
    fetchall (mkCursor pages) = accumulateViaAdvance pages := by
  unfold fetchall mkCursor
  simpa using fetchallAux_eq pages []

theorem fetchoneAux_exhausted :
    ∀ (pages : List Page) (st : Option Stats),
      pages.all (fun p => p.rows.isEmpty) = true →
      ∃ st', fetchoneAux [] pages st = (none, ⟨[], [], st'⟩) := by
  intro pages
  induction pages with
  | nil => intro st _; exact ⟨st, rfl⟩
  | cons p ps ih =>
      intro st hall
      simp only [List.all_cons, Bool.and_eq_true, List.isEmpty_iff] at hall
      rw [fetchoneAux, hall.1]
      exact ih (some p.stats) (by simpa [List.all_eq_true, List.isEmpty_iff]
        using hall.2)

theorem fetchallAux_exhausted :
    ∀ pages : List Page, pages.all (fun p => p.rows.isEmpty) = true →
      fetchallAux [] pages = [] := by
  intro pages
  induction pages with
  | nil => intro _; rw [fetchallAux]
  | cons p ps ih =>
      intro hall
      simp only [List.all_cons, Bool.and_eq_true, List.isEmpty_iff] at hall
      rw [fetchallAux, hall.1]
      exact ih (by simpa [List.all_eq_true, List.isEmpty_iff] using hall.2)

/-- C9: on an exhausted cursor — including a query that returned zero rows —
`fetchone` returns the sentinel `none` rather than raising, the cursor stays
exhausted so every subsequent `fetchone` keeps returning the sentinel, and
`fetchall` returns the empty sequence. -/
theorem fetchone_exhausted (s : CursorState) (h : noMoreRows s = true) :
    (fetchone s).1 = none ∧ noMoreRows (fetchone s).2 = true ∧
      fetchall s = [] := by
  unfold noMoreRows at h
  simp only [Bool.and_eq_true, List.isEmpty_iff] at h
  obtain ⟨hbuf, hpages⟩ := h
  obtain ⟨st', hfo⟩ := fetchoneAux_exhausted s.pages s.lastStats hpages
  unfold fetchone fetchall
  rw [hbuf, hfo]
  exact ⟨rfl, by simp [noMoreRows], fetchallAux_exhausted s.pages hpages⟩

/-- Witness for C9: a cursor whose only page carries no rows is exhausted,
fetches the sentinel, stays exhausted and fetches an empty list. -/
theorem fetchone_exhausted_witness :
    noMoreRows (mkCursor [⟨[], ⟨"q", "FINISHED", 0, 0, 0, 0, 0⟩⟩]) = true ∧
    ((fetchone (mkCursor [⟨[], ⟨"q", "FINISHED", 0, 0, 0, 0, 0⟩⟩])).1 = none ∧
      noMoreRows (fetchone (mkCursor [⟨[], ⟨"q", "FINISHED", 0, 0, 0, 0, 0⟩⟩])).2
        = true ∧
      fetchall (mkCursor [⟨[], ⟨"q", "FINISHED", 0, 0, 0, 0, 0⟩⟩]) = []) :=
  ⟨by decide, fetchone_exhausted _ (by decide)⟩

theorem fetchoneAux_stats :
    ∀ (pages : List Page) (buf : List Row) (st : Option Stats),
      StatsMono ⟨buf, pages, st⟩ →
      StatsMono (fetchoneAux buf pages st).2 ∧
      (∀ a, st = some a →
        ∃ b, (fetchoneAux buf pages st).2.lastStats = some b ∧
          a.counterLe b) := by
  intro pages
  induction pages with
  | nil =>
      intro buf st h
      cases buf with
      | nil =>
          exact ⟨h, fun a ha => ⟨a, ha, Stats.counterLe_refl a⟩⟩
      | cons r rest =>
          exact ⟨h, fun a ha => ⟨a, ha, Stats.counterLe_refl a⟩⟩
  | cons p ps ih =>
      intro buf st h
      cases buf with
      | cons r rest =>
          exact ⟨h, fun a ha => ⟨a, ha, Stats.counterLe_refl a⟩⟩
      | nil =>
          rw [fetchoneAux]
          cases st with
          | none =>
              have h2 : StatsMono ⟨p.rows, ps, some p.stats⟩ := by
                unfold StatsMono statsChain at h ⊢
                simpa using h
              obtain ⟨hmono, _⟩ := ih p.rows (some p.stats) h2
              exact ⟨hmono, fun a ha => absurd ha (by simp)⟩
          | some a0 =>
              unfold StatsMono statsChain at h
              simp only [List.singleton_append, List.map_cons] at h
              rw [List.chain'_cons] at h
              have h2 : StatsMono ⟨p.rows, ps, some p.stats⟩ := by
                unfold StatsMono statsChain
                simpa using h.2
              obtain ⟨hmono, hprog⟩ := ih p.rows (some p.stats) h2
              refine ⟨hmono, fun a ha => ?_⟩
              obtain ⟨b, hb, hpb⟩ := hprog p.stats rfl
              have ha0 : a0 = a := by injection ha
              exact ⟨b, hb, Stats.counterLe_trans (ha0 ▸ h.1) hpb⟩

theorem stepFetch_stats (s : CursorState) (h : StatsMono s) :
    StatsMono (stepFetch s) ∧
    ∀ a, s.lastStats = some a →
      ∃ b, (stepFetch s).lastStats = some b ∧ a.counterLe b := by
  have hs : StatsMono ⟨s.buffer, s.pages, s.lastStats⟩ := h
  exact fetchoneAux_stats s.pages s.buffer s.lastStats hs

theorem fetchN_progress :
    ∀ (k : Nat) (s : CursorState), StatsMono s →
      StatsMono (fetchN s k) ∧
      (∀ a, s.lastStats = some a →
        ∃ b, (fetchN s k).lastStats = some b ∧ a.counterLe b) := by
  intro k
  induction k with
  | zero =>
      intro s h
      exact ⟨h, fun a ha => ⟨a, ha, Stats.counterLe_refl a⟩⟩
  | succ k ihk =>
      intro s h
      have hstep := stepFetch_stats s h
      have hrec := ihk (stepFetch s) hstep.1
      have hiter : fetchN s (k + 1) = fetchN (stepFetch s) k := by
        unfold fetchN
        rw [Function.iterate_succ_apply]
      rw [hiter]
      refine ⟨hrec.1, fun a ha => ?_⟩
      obtain ⟨b1, hb1, hab1⟩ := hstep.2 a ha
      obtain ⟨b2, hb2, hb12⟩ := hrec.2 b1 hb1
      exact ⟨b2, hb2, Stats.counterLe_trans hab1 hb12⟩

/-- C3: under the server-side guarantee that successive pages carry
non-decreasing counters, every pair of pages of one query — in consumption
order — satisfies the pointwise counter inequality, and the cursor's stats
snapshot is monotone along any two fetch prefixes: the cursor never shows a
stale or smaller snapshot after a newer page has been consumed. -/
theorem stats_monotone (pages : List Page)
    (hchain : List.Chain' Stats.counterLe (pages.map (fun p => p.stats))) :
    (∀ (i j : Nat) (hi : i < pages.length) (hj : j < pages.length), i ≤ j →
      (pages.get ⟨i, hi⟩).stats.counterLe (pages.get ⟨j, hj⟩).stats) ∧
    (∀ m n, m ≤ n → ∀ a b,
      (fetchN (mkCursor pages) m).lastStats = some a →
      (fetchN (mkCursor pages) n).lastStats = some b →
      a.counterLe b) := by
  constructor
  · intro i j hi hj hij
    rcases Nat.eq_or_lt_of_le hij with rfl | hlt
    · exact Stats.counterLe_refl _
    · have hpw := List.chain'_iff_pairwise.1 hchain
      have hmap := List.pairwise_iff_get.1 hpw
        ⟨i, by simpa using hi⟩ ⟨j, by simpa using hj⟩ hlt
      simpa using hmap
  · intro m n hmn a b ha hb
    have h0 : StatsMono (mkCursor pages) := by
      unfold StatsMono statsChain mkCursor
      simpa using hchain
    obtain ⟨k, rfl⟩ : ∃ k, n = k + m := ⟨n - m, by omega⟩
    have hm := fetchN_progress m (mkCursor pages) h0
    have hiter : fetchN (mkCursor pages) (k + m) =
        fetchN (fetchN (mkCursor pages) m) k := by
      unfold fetchN
      rw [Function.iterate_add_apply]
    obtain ⟨b2, hb2, hab2⟩ := (fetchN_progress k _ hm.1).2 a ha
    rw [hiter] at hb
    rw [hb] at hb2
    have : b = b2 := by injection hb2
    exact this ▸ hab2

/-- Witness for C3: over two concrete pages with increasing counters, the
snapshots seen after one and after two fetches satisfy the pointwise
counter inequality. -/
theorem stats_monotone_witness :
    List.Chain' Stats.counterLe
      ([⟨[["r1"]], ⟨"q", "RUNNING", 0, 1, 2, 3, 4⟩⟩,
        ⟨[["r2"]], ⟨"q", "FINISHED", 5, 6, 7, 8, 9⟩⟩].map
          (fun p : Page => p.stats)) ∧
    Stats.counterLe ⟨"q", "RUNNING", 0, 1, 2, 3, 4⟩
      ⟨"q", "FINISHED", 5, 6, 7, 8, 9⟩ :=
  ⟨by
    simp only [List.map_cons, List.map_nil, List.chain'_cons,
      List.chain'_singleton, and_true]
    decide,
   (stats_monotone [⟨[["r1"]], ⟨"q", "RUNNING", 0, 1, 2, 3, 4⟩⟩,
       ⟨[["r2"]], ⟨"q", "FINISHED", 5, 6, 7, 8, 9⟩⟩]
     (by
       simp only [List.map_cons, List.map_nil, List.chain'_cons,
         List.chain'_singleton, and_true]
       decide)).2
     1 2 (by omega) _ _ rfl rfl⟩

/-- C5: execute with a params argument that is not an ordered, indexable
sequence (a scalar string, a set, a mapping, a bare type) signals a
programming error before any network call: zero requests are sent and no
query state is created. -/
theorem execute_invalid_params (transport : Nat → RawResult)
    (maxAttempts : Nat) (params : ParamsArg)
    (h : params.isValidShape = false) :
    execute transport maxAttempts params =
      (.error (.programmingError ("params must be a list or tuple")), 0) := by
  simp [execute, h]

/-- Witness for C5: the scalar-string, set, mapping and bare-type params of
`test_select_query_invalid_params` each fail fast with zero requests. -/
theorem execute_invalid_params_witness :
    execute (fun _ => RawResult.netFail) 3 (.scalarText ("NOT A LIST OR TUPPLE")) =
      (.error (.programmingError ("params must be a list or tuple")), 0) ∧
    execute (fun _ => RawResult.netFail) 3 (.setOf []) =
      (.error (.programmingError ("params must be a list or tuple")), 0) ∧
    execute (fun _ => RawResult.netFail) 3 (.mapping [("invalid", .null)]) =
      (.error (.programmingError ("params must be a list or tuple")), 0) ∧
    execute (fun _ => RawResult.netFail) 3 .bareType =
      (.error (.programmingError ("params must be a list or tuple")), 0) :=
  ⟨execute_invalid_params _ 3 _ rfl, execute_invalid_params _ 3 _ rfl,
   execute_invalid_params _ 3 _ rfl, execute_invalid_params _ 3 _ rfl⟩

/-- C6: cancelling a live query — one with a `nextUri` and a non-terminal
phase — issues exactly one cancellation request and transitions the query to
CANCELLED; cancelling with no executed query, or a terminal query, signals
the `NoActiveQuery` error with zero requests and never silently succeeds. -/
theorem cancel_spec (oq : Option QueryState) :
    (∀ q, oq = some q → q.nextUri.isSome = true → q.phase.isTerminal = false →
      cancel oq = (.ok { q with nextUri := none, phase := .cancelled }, 1)) ∧
    ((oq = none ∨ ∃ q, oq = some q ∧
        (q.nextUri = none ∨ q.phase.isTerminal = true)) →
      cancel oq =
        (.error (.noActiveQuery ("Cancel query failed; no running query")), 0)) := by
  constructor
  · intro q hq hnext hterm
    subst hq
    simp [cancel, hnext, hterm]
  · intro hcase
    rcases hcase with rfl | ⟨q, rfl, hq⟩
    · rfl
    · rcases hq with hnone | hterm
      · simp [cancel, hnone]
      · simp [cancel, hterm]

/-- Witness for C6: a running query with a `nextUri` cancels with exactly
one request; a cursor with no executed query signals the documented error
with zero requests. -/
theorem cancel_spec_witness :
    cancel (some ⟨"q1", some ("next-uri"), .running⟩) =
      (.ok ⟨"q1", none, .cancelled⟩, 1) ∧
    cancel none =
      (.error (.noActiveQuery ("Cancel query failed; no running query")), 0) :=
  ⟨(cancel_spec (some ⟨"q1", some ("next-uri"), .running⟩)).1 _ rfl rfl rfl,
   (cancel_spec none).2 (Or.inl rfl)⟩

/-- C10: a connection created without explicit configuration options applies
the module defaults: port 8080, source "presto-python-client", no catalog,
no schema, no authentication, 3 attempts, a 30-second request timeout, and
statement submissions target "/v1/statement". -/
theorem default_connection_values (host user : String) :
    (defaultConnection host user).port = 8080 ∧
    (defaultConnection host user).source = "presto-python-client" ∧
    (defaultConnection host user).catalog = none ∧
    (defaultConnection host user).schema = none ∧
    (defaultConnection host user).auth = none ∧
    (defaultConnection host user).maxAttempts = 3 ∧
    (defaultConnection host user).requestTimeout = 30 ∧
    (defaultConnection host user).statementPath = "/v1/statement" :=
  ⟨rfl, rfl, rfl, rfl, rfl, rfl, rfl, rfl⟩

end Trino
